import Mathlib

/-!
# ArduSat space-kit sensor layer: TMP102 driver, driver address table, serial multiplexer

A shallow embedding of

* `libraries/tmp102_arduino/tmp102.h`, `tmp102.cpp` (class `Tmp102`),
* `libraries/ArdusatSDK/utility/drivers.h` (the `DRIVER_*_ADDR` table),
* `libraries/ArdusatSDK/utility/serial.h` (class `ArdusatSerial`),

followed by the properties established about them.

Conventions.

* A C `byte` / `uint8_t` is a `Nat`; a conversion to `uint8_t` is an explicit `% 256`.
* A C `double` is the rational number it denotes. Every floating-point operation of the
  source (a literal, an `int` to `double` conversion, a product) is followed by an explicit
  rounding to the format, `DoubleFormat.round`. The format is a parameter: `double` is IEEE
  binary32 on the AVR boards and binary64 on the ARM boards.
* The I2C master `TwoWire` (Arduino core, `<Wire.h>`) is not part of the repository. Its
  member functions are a parameter (`TwoWire σ`, over an arbitrary bus state `σ`), and every
  call made through a `TwoWire*` is recorded in a trace.
-/

namespace SpaceKit

/-! ## The C type `double` -/

/-- The binary floating-point format that implements the C type `double`. -/
inductive DoubleFormat where
  | binary32
  | binary64
deriving DecidableEq

/-- Number of significand bits of the format, hidden bit included. -/
def DoubleFormat.precision : DoubleFormat → Nat
  | .binary32 => 24
  | .binary64 => 53

/-- Nearest integer to `t`, a tie going to the even neighbour. -/
def roundNearestEven (t : ℚ) : Int :=
  let f := ⌊t⌋
  let r := t - f
  if r < 1 / 2 then f
  else if 1 / 2 < r then f + 1
  else if f % 2 = 0 then f else f + 1

/-- Round-to-nearest-even onto the normal numbers of the format: `q` is rounded to a
multiple of the unit in the last place of its binade, `2 ^ (⌊log₂ |q|⌋ - (precision - 1))`.
Exponent overflow and the subnormal range are not modelled; the magnitudes that occur in
this development lie between `2 ^ (-4)` and `2 ^ 9`. -/
def DoubleFormat.round (fmt : DoubleFormat) (q : ℚ) : ℚ :=
  if q = 0 then 0
  else
    let ulp : ℚ := (2 : ℚ) ^ (Int.log 2 |q| - (fmt.precision - 1 : Int))
    roundNearestEven (q / ulp) * ulp

/-- Value of a decimal floating-point literal of the source. -/
def DoubleFormat.lit (fmt : DoubleFormat) (q : ℚ) : ℚ := fmt.round q

/-- Conversion of an `int` operand to `double` (usual arithmetic conversions). -/
def DoubleFormat.ofInt (fmt : DoubleFormat) (n : Int) : ℚ := fmt.round n

/-- Product of two `double` values. -/
def DoubleFormat.mul (fmt : DoubleFormat) (a b : ℚ) : ℚ := fmt.round (a * b)

/-! ## The I2C master (`TwoWire`) and the bus objects of a program -/

/-- Member functions of the Arduino class `TwoWire` that the driver calls, over a bus state
`σ` (buffers of the master together with whatever the attached slaves will answer).
`endTransmission` returns the `uint8_t` status of the transaction (`0` is success),
`read` returns an `int` (a received byte, or `-1` when the receive buffer is empty). -/
structure TwoWire (σ : Type) where
  begin : σ → σ
  beginTransmission : σ → Nat → σ
  write : σ → Nat → Nat × σ
  endTransmission : σ → Nat × σ
  requestFrom : σ → Nat → Nat → Nat × σ
  read : σ → Int × σ

/-- A `TwoWire*`: which bus object a call is made on. -/
abbrev BusRef := Nat

/-- The global instance `Wire` that `<Wire.h>` declares. -/
def Wire : BusRef := 0

/-- A call of a `TwoWire` member function, with its arguments. -/
inductive BusCall where
  | begin
  | beginTransmission (address : Nat)
  | write (data : Nat)
  | endTransmission
  | requestFrom (address quantity : Nat)
  | read
deriving DecidableEq

/-- One entry of the bus trace: the bus object and the call made on it. -/
structure BusEvent where
  bus : BusRef
  call : BusCall
deriving DecidableEq

/-- The bus objects of the program and the trace of the calls made so far. -/
structure World (σ : Type) where
  bus : BusRef → σ
  trace : List BusEvent

/-- Record the call `c` on bus `r`, which leaves that bus in state `s`. -/
def World.call {σ : Type} (w : World σ) (r : BusRef) (c : BusCall) (s : σ) : World σ :=
  { bus := fun r' => if r' = r then s else w.bus r'
    trace := w.trace ++ [⟨r, c⟩] }

/-- The call `r->begin()`. -/
def TwoWire.beginOn {σ : Type} (I : TwoWire σ) (r : BusRef) (w : World σ) : World σ :=
  w.call r .begin (I.begin (w.bus r))

/-- The call `r->beginTransmission(address)`. -/
def TwoWire.beginTransmissionOn {σ : Type} (I : TwoWire σ) (r : BusRef) (address : Nat)
    (w : World σ) : World σ :=
  w.call r (.beginTransmission address) (I.beginTransmission (w.bus r) address)

/-- The call `r->write(data)`. -/
def TwoWire.writeOn {σ : Type} (I : TwoWire σ) (r : BusRef) (data : Nat)
    (w : World σ) : Nat × World σ :=
  let res := I.write (w.bus r) data
  (res.1, w.call r (.write data) res.2)

/-- The call `r->endTransmission()`. -/
def TwoWire.endTransmissionOn {σ : Type} (I : TwoWire σ) (r : BusRef)
    (w : World σ) : Nat × World σ :=
  let res := I.endTransmission (w.bus r)
  (res.1, w.call r .endTransmission res.2)

/-- The call `r->requestFrom(address, quantity)`. -/
def TwoWire.requestFromOn {σ : Type} (I : TwoWire σ) (r : BusRef) (address quantity : Nat)
    (w : World σ) : Nat × World σ :=
  let res := I.requestFrom (w.bus r) address quantity
  (res.1, w.call r (.requestFrom address quantity) res.2)

/-- The call `r->read()`. -/
def TwoWire.readOn {σ : Type} (I : TwoWire σ) (r : BusRef) (w : World σ) : Int × World σ :=
  let res := I.read (w.bus r)
  (res.1, w.call r .read res.2)

/-- Conversion of an `int` to `byte` (`uint8_t`): the low 8 bits. -/
def toByte (n : Int) : Nat := (n % 256).toNat

/-! ## `tmp102.h`, `tmp102.cpp` -/

/-- The macro `TEMP_ABSOLUTE_ZERO`, `-273.15`: the negated literal `273.15`. -/
def TEMP_ABSOLUTE_ZERO (fmt : DoubleFormat) : ℚ := -(fmt.lit 273.15)

/-- Data members of `class Tmp102`. -/
structure Tmp102 where
  wire_ : BusRef
  slv_addr_ : Nat
deriving DecidableEq

/-- The constructor `Tmp102::Tmp102(TwoWire* wire, byte slv_addr)`. -/
def Tmp102.new {σ : Type} (I : TwoWire σ) (wire : BusRef) (slv_addr : Nat)
    (w : World σ) : Tmp102 × World σ :=
  ({ wire_ := wire, slv_addr_ := slv_addr }, I.beginOn wire w)

/-- The member function `double Tmp102::read()`. -/
def Tmp102.read {σ : Type} (fmt : DoubleFormat) (I : TwoWire σ) (t : Tmp102)
    (w : World σ) : ℚ × World σ :=
  -- Check accessibility
  let w1 := I.beginTransmissionOn t.wire_ t.slv_addr_ w
  let w2 := (I.writeOn t.wire_ 0x00 w1).2
  let e := I.endTransmissionOn t.wire_ w2
  let error := e.1
  if error ≠ 0 then
    (TEMP_ABSOLUTE_ZERO fmt, e.2)
  else
    -- Read bytes of temperature data
    let w4 := (I.requestFromOn t.wire_ t.slv_addr_ 2 e.2).2
    let w5 := (I.endTransmissionOn t.wire_ w4).2
    let r0 := I.readOn Wire w5
    let ret0 := toByte r0.1
    let r1 := I.readOn Wire r0.2
    let ret1 := toByte r1.1
    -- Convert raw bytes to temperature value
    let tmperature := fmt.mul (fmt.ofInt (((ret0 <<< 4) ||| (ret1 >>> 4) : Nat) : Int))
      (fmt.lit 0.0625)
    (tmperature, r1.2)

/-- Status that the `endTransmission` closing the pointer-register write of `read` reports
(the value stored in `error`). -/
def Tmp102.pointerWriteStatus {σ : Type} (I : TwoWire σ) (t : Tmp102) (w : World σ) : Nat :=
  (I.endTransmissionOn t.wire_
    (I.writeOn t.wire_ 0x00 (I.beginTransmissionOn t.wire_ t.slv_addr_ w)).2).1

/-- World in which an acknowledged `read` fetches its two data bytes: after the pointer
write, the request for two bytes and the second `endTransmission`. -/
def Tmp102.worldAtDataReads {σ : Type} (I : TwoWire σ) (t : Tmp102) (w : World σ) : World σ :=
  (I.endTransmissionOn t.wire_
    (I.requestFromOn t.wire_ t.slv_addr_ 2
      (I.endTransmissionOn t.wire_
        (I.writeOn t.wire_ 0x00 (I.beginTransmissionOn t.wire_ t.slv_addr_ w)).2).2).2).2

/-- The two data bytes of an acknowledged `read`, as stored in `ret[0]` and `ret[1]`. -/
def Tmp102.dataBytes {σ : Type} (I : TwoWire σ) (t : Tmp102) (w : World σ) : Nat × Nat :=
  let r0 := I.readOn Wire (t.worldAtDataReads I w)
  let r1 := I.readOn Wire r0.2
  (toByte r0.1, toByte r1.1)

/-! ## `drivers.h` -/

/-- I2C address of the TSL2561 luminosity sensor. -/
def DRIVER_TSL2561_ADDR : Nat := 0x39

/-- I2C address of the TMP102 temperature sensor. -/
def DRIVER_TMP102_ADDR : Nat := 0x48

/-- I2C address of the MLX90614 IR thermometer. -/
def DRIVER_MLX90614_ADDR : Nat := 0x5A

/-- I2C address of the SI1145 UV/light sensor. -/
def DRIVER_SI1145_ADDR : Nat := 0x60

/-! ## `serial.h` -/

/-- The enumeration `serialMode`. -/
inductive serialMode where
  | SERIAL_MODE_HARDWARE
  | SERIAL_MODE_SOFTWARE
  | SERIAL_MODE_HARDWARE_AND_SOFTWARE
deriving DecidableEq

/-- Data members of `class ArdusatSerial`. The object `_soft_serial` points to is the
software transport of `SerialWorld`. -/
structure ArdusatSerial where
  _mode : serialMode
deriving DecidableEq

/-- The conversion `(uint8_t)n` of an integer of any width: the low 8 bits. -/
def toUInt8 (n : Int) : Nat := (n % 256).toNat

/-- The overload `size_t write(unsigned long n)`. The parameter `write` is the virtual
member `write(uint8_t)` of the object, over an arbitrary program state `S`. -/
def ArdusatSerial.write_unsigned_long {S : Type} (write : ArdusatSerial → Nat → S → Nat × S)
    (self : ArdusatSerial) (n : Nat) : S → Nat × S :=
  write self (toUInt8 n)

/-- The overload `size_t write(long n)`. -/
def ArdusatSerial.write_long {S : Type} (write : ArdusatSerial → Nat → S → Nat × S)
    (self : ArdusatSerial) (n : Int) : S → Nat × S :=
  write self (toUInt8 n)

/-- The overload `size_t write(unsigned int n)`. -/
def ArdusatSerial.write_unsigned_int {S : Type} (write : ArdusatSerial → Nat → S → Nat × S)
    (self : ArdusatSerial) (n : Nat) : S → Nat × S :=
  write self (toUInt8 n)

/-- The overload `size_t write(int n)`. -/
def ArdusatSerial.write_int {S : Type} (write : ArdusatSerial → Nat → S → Nat × S)
    (self : ArdusatSerial) (n : Int) : S → Nat × S :=
  write self (toUInt8 n)

/-- The byte writes of the two underlying transports, `HardwareSerial::write(uint8_t)` on the
hardware UART and `SoftwareSerial::write(uint8_t)` on `*_soft_serial`, over transport states
`H` and `S`; each returns the number of bytes it wrote. -/
structure Transports (H S : Type) where
  hardwareWrite : H → Nat → Nat × H
  softwareWrite : S → Nat → Nat × S

/-- Which of the two transports a byte write was made on. -/
inductive Transport where
  | hardware
  | software
deriving DecidableEq

/-- The two transports of the program and the trace of the byte writes made so far. -/
structure SerialWorld (H S : Type) where
  hardware : H
  software : S
  trace : List (Transport × Nat)

/-- A byte write on the hardware transport. -/
def Transports.writeHardware {H S : Type} (T : Transports H S) (x : Nat)
    (w : SerialWorld H S) : Nat × SerialWorld H S :=
  let res := T.hardwareWrite w.hardware x
  (res.1, { w with hardware := res.2, trace := w.trace ++ [(Transport.hardware, x)] })

/-- A byte write on the software transport. -/
def Transports.writeSoftware {H S : Type} (T : Transports H S) (x : Nat)
    (w : SerialWorld H S) : Nat × SerialWorld H S :=
  let res := T.softwareWrite w.software x
  (res.1, { w with software := res.2, trace := w.trace ++ [(Transport.software, x)] })

/-- Modelled from the spec: the constructor `ArdusatSerial(serialMode mode)`, declared in
`serial.h`; its body (`serial.cpp`) is not among the sources. The mode is fixed at
construction. -/
def ArdusatSerial.new (mode : serialMode) : ArdusatSerial := { _mode := mode }

/-- Modelled from the spec: the member `size_t ArdusatSerial::write(uint8_t)`, declared in
`serial.h`; its body (`serial.cpp`) is not among the sources. Single-transport modes write
to the active transport and return its byte count. Dual-transport mode writes to both, in
a fixed order (hardware first, then software), and returns the count of the hardware
transport. -/
def ArdusatSerial.write {H S : Type} (T : Transports H S) (self : ArdusatSerial) (x : Nat)
    (w : SerialWorld H S) : Nat × SerialWorld H S :=
  match self._mode with
  | .SERIAL_MODE_HARDWARE => T.writeHardware x w
  | .SERIAL_MODE_SOFTWARE => T.writeSoftware x w
  | .SERIAL_MODE_HARDWARE_AND_SOFTWARE =>
    let h := T.writeHardware x w
    let s := T.writeSoftware x h.2
    (h.1, s.2)

/-- A simulated pair of transports: the state of each is the list of bytes it has sent;
the hardware UART accepts every byte, the software transport reports a failed write. -/
def simTransports : Transports (List Nat) (List Nat) where
  hardwareWrite sent x := (1, sent ++ [x])
  softwareWrite sent _ := (0, sent)

/-! ### A simulated bus -/

/-- State of a simulated I2C bus with one slave: the status every `endTransmission`
reports, the bytes the slave sends when asked, and the receive buffer of the master. -/
structure SimBus where
  status : Nat
  slave : List Nat
  rxBuffer : List Nat
deriving DecidableEq

/-- The simulated `TwoWire`: `requestFrom` replaces the receive buffer with the first
`quantity` bytes of the slave, `read` pops the receive buffer and returns `-1` when it is
empty. -/
def simWire : TwoWire SimBus where
  begin s := s
  beginTransmission s _ := s
  write s _ := (1, s)
  endTransmission s := (s.status, s)
  requestFrom s _ quantity :=
    ((s.slave.take quantity).length, { s with rxBuffer := s.slave.take quantity })
  read s :=
    match s.rxBuffer with
    | [] => (-1, s)
    | b :: bs => ((b : Int), { s with rxBuffer := bs })

/-- A program whose only bus object in use is the global `Wire`, in state `s`. -/
def simWorld (s : SimBus) : World SimBus := { bus := fun _ => s, trace := [] }

/-- A program with a second bus object: bus 1 is in state `s1`, every other bus object
(the global `Wire` included) in state `s`. -/
def simWorld2 (s s1 : SimBus) : World SimBus :=
  { bus := fun r => if r = 1 then s1 else s, trace := [] }

/-! ## Rounding lemmas -/

theorem roundNearestEven_intCast (z : Int) : roundNearestEven (z : ℚ) = z := by
  simp [roundNearestEven]

theorem roundNearestEven_pos {t : ℚ} (ht : 1 ≤ t) : 0 < roundNearestEven t := by
  have hf : 1 ≤ ⌊t⌋ := by
    rw [Int.le_floor]
    push_cast
    exact ht
  unfold roundNearestEven
  simp only
  split_ifs <;> omega

theorem DoubleFormat.precision_ge (fmt : DoubleFormat) : 24 ≤ fmt.precision := by
  cases fmt <;> decide

/-- A positive number rounds to a positive number. -/
theorem DoubleFormat.round_pos (fmt : DoubleFormat) {q : ℚ} (hq : 0 < q) :
    0 < fmt.round q := by
  have hne : q ≠ 0 := ne_of_gt hq
  have hp := fmt.precision_ge
  set e := Int.log 2 |q| with he
  have hlog : (2 : ℚ) ^ e ≤ q := by
    have h := Int.zpow_log_le_self (R := ℚ) (b := 2) (r := |q|) (by norm_num) (abs_pos.mpr hne)
    simpa [he, abs_of_pos hq] using h
  have hulp : (0 : ℚ) < (2 : ℚ) ^ (e - (fmt.precision - 1 : Int)) := by positivity
  have hle : (2 : ℚ) ^ (e - (fmt.precision - 1 : Int)) ≤ (2 : ℚ) ^ e :=
    zpow_le_zpow_right₀ (by norm_num) (by omega)
  have ht : 1 ≤ q / (2 : ℚ) ^ (e - (fmt.precision - 1 : Int)) := by
    rw [le_div_iff₀ hulp]
    linarith
  have hr : (0 : ℚ) < (roundNearestEven (q / (2 : ℚ) ^ (e - (fmt.precision - 1 : Int))) : Int) := by
    exact_mod_cast roundNearestEven_pos ht
  unfold DoubleFormat.round
  rw [if_neg hne]
  simp only
  rw [← he]
  exact mul_pos hr hulp

/-- A dyadic rational whose numerator fits the significand is not changed by rounding. -/
theorem DoubleFormat.round_exact (fmt : DoubleFormat) (m j : Nat)
    (hm : m < 2 ^ fmt.precision) : fmt.round ((m : ℚ) / 2 ^ j) = (m : ℚ) / 2 ^ j := by
  rcases Nat.eq_zero_or_pos m with h0 | hpos
  · subst h0; simp [DoubleFormat.round]
  have hq : (0 : ℚ) < (m : ℚ) / 2 ^ j := by positivity
  have hne : (m : ℚ) / 2 ^ j ≠ 0 := ne_of_gt hq
  set q : ℚ := (m : ℚ) / 2 ^ j with hqdef
  set e := Int.log 2 |q| with he
  have hlog : (2 : ℚ) ^ e ≤ q := by
    have h := Int.zpow_log_le_self (R := ℚ) (b := 2) (r := |q|) (by norm_num) (abs_pos.mpr hne)
    simpa [he, abs_of_pos hq] using h
  have hlt : q < (2 : ℚ) ^ ((fmt.precision : Int) - j) := by
    rw [hqdef, zpow_sub₀ (by norm_num)]
    have hm' : (m : ℚ) < 2 ^ fmt.precision := by exact_mod_cast hm
    simp only [zpow_natCast]
    exact div_lt_div_of_pos_right hm' (by positivity)
  have hej : e < (fmt.precision : Int) - j :=
    (zpow_lt_zpow_iff_right₀ (by norm_num : (1 : ℚ) < 2)).mp (lt_of_le_of_lt hlog hlt)
  obtain ⟨k, hk⟩ : ∃ k : Nat, (k : Int) = (fmt.precision : Int) - 1 - e - j :=
    ⟨((fmt.precision : Int) - 1 - e - j).toNat, by omega⟩
  have hdiv : q / (2 : ℚ) ^ (e - (fmt.precision - 1 : Int))
      = (((m * 2 ^ k : Nat) : Int) : ℚ) := by
    have h2 : (2 : ℚ) ≠ 0 := by norm_num
    rw [hqdef, div_div, ← zpow_natCast (2 : ℚ) j, ← zpow_add₀ h2]
    push_cast
    rw [← zpow_natCast (2 : ℚ) k, hk, div_eq_iff (by positivity), mul_assoc, ← zpow_add₀ h2]
    have h0 : ((fmt.precision : Int) - 1 - e - j + (j + (e - (fmt.precision - 1 : Int)))) = 0 := by
      ring
    rw [h0]; simp
  unfold DoubleFormat.round
  rw [if_neg hne]
  simp only
  rw [← he, hdiv, roundNearestEven_intCast, ← hdiv]
  field_simp

/-- The sentinel is a negative number in either format. -/
theorem TEMP_ABSOLUTE_ZERO_neg (fmt : DoubleFormat) : TEMP_ABSOLUTE_ZERO fmt < 0 := by
  have h : 0 < fmt.round 273.15 := fmt.round_pos (by norm_num)
  simpa [TEMP_ABSOLUTE_ZERO, DoubleFormat.lit] using h

/-! ## Decoding lemmas -/

theorem toByte_lt (n : Int) : toByte n < 256 := by
  unfold toByte
  have h := Int.emod_lt_of_pos n (by norm_num : (0 : Int) < 256)
  have h0 := Int.emod_nonneg n (by norm_num : (256 : Int) ≠ 0)
  omega

/-- The shifted high byte and the top nibble of the low byte occupy disjoint bits. -/
theorem shift_or_eq_add (b0 b1 : Nat) (h1 : b1 < 256) :
    (b0 <<< 4) ||| (b1 >>> 4) = b0 * 16 + b1 / 16 := by
  have hlt : b1 / 16 < 2 ^ 4 := by omega
  have h := Nat.mul_add_lt_is_or hlt b0
  rw [Nat.shiftLeft_eq, Nat.shiftRight_eq_div_pow, Nat.mul_comm b0 (2 ^ 4), ← h]

/-- Masking a byte with `0xF0` keeps its top nibble. -/
theorem and_F0_div_16 (b1 : Nat) (h : b1 < 256) : (b1 &&& 0xF0) / 16 = b1 / 16 := by
  have h2 := Nat.shiftRight_eq_div_pow (b1 &&& 0xF0) 4
  have h3 := Nat.shiftRight_eq_div_pow b1 4
  norm_num at h2 h3
  rw [← h2, ← h3]
  apply Nat.eq_of_testBit_eq
  intro i
  simp only [Nat.testBit_shiftRight, Nat.testBit_and]
  by_cases hi : i < 4
  · interval_cases i <;> simp [Nat.testBit]
  · have hpow : 256 ≤ 2 ^ (4 + i) :=
      calc 256 = 2 ^ 8 := by norm_num
        _ ≤ 2 ^ (4 + i) := Nat.pow_le_pow_right (by norm_num) (by omega)
    have hbit : b1.testBit (4 + i) = false := Nat.testBit_lt_two_pow (lt_of_lt_of_le h hpow)
    simp [hbit]

/-- The conversion of the source is exact: a 12-bit code times `0.0625` is the code over 16. -/
theorem DoubleFormat.decode_exact (fmt : DoubleFormat) (b0 b1 : Nat) (h0 : b0 < 256)
    (h1 : b1 < 256) :
    fmt.mul (fmt.ofInt (((b0 <<< 4) ||| (b1 >>> 4) : Nat) : Int)) (fmt.lit 0.0625)
      = ((b0 * 16 + b1 / 16 : Nat) : ℚ) * 0.0625 := by
  have hp := fmt.precision_ge
  have hpow : 2 ^ 24 ≤ 2 ^ fmt.precision := Nat.pow_le_pow_right (by norm_num) hp
  rw [shift_or_eq_add b0 b1 h1]
  set c := b0 * 16 + b1 / 16 with hc
  have hc4096 : c < 4096 := by omega
  have hci : fmt.ofInt ((c : Nat) : Int) = (c : ℚ) := by
    have h := fmt.round_exact c 0 (by omega)
    simpa [DoubleFormat.ofInt] using h
  have hlit : fmt.lit 0.0625 = 0.0625 := by
    have h := fmt.round_exact 1 4 (by omega)
    unfold DoubleFormat.lit
    norm_num at h ⊢
    exact h
  rw [hci, hlit]
  have h := fmt.round_exact c 4 (by omega)
  unfold DoubleFormat.mul
  norm_num at h ⊢
  have he : (c : ℚ) * (1 / 16) = (c : ℚ) / 16 := by ring
  rw [he]
  exact h

/-- Result and final world of `read` when the pointer write is not acknowledged. -/
theorem Tmp102.read_nack {σ : Type} (fmt : DoubleFormat) (I : TwoWire σ) (t : Tmp102)
    (w : World σ) (h : t.pointerWriteStatus I w ≠ 0) :
    (t.read fmt I w).1 = TEMP_ABSOLUTE_ZERO fmt := by
  unfold Tmp102.pointerWriteStatus at h
  simp [Tmp102.read, h]

/-- Result of `read` when the pointer write is acknowledged. -/
theorem Tmp102.read_ack {σ : Type} (fmt : DoubleFormat) (I : TwoWire σ) (t : Tmp102)
    (w : World σ) (h : t.pointerWriteStatus I w = 0) :
    (t.read fmt I w).1
      = (((t.dataBytes I w).1 * 16 + (t.dataBytes I w).2 / 16 : Nat) : ℚ) * 0.0625 := by
  have hd : (t.dataBytes I w).1 < 256 ∧ (t.dataBytes I w).2 < 256 :=
    ⟨toByte_lt _, toByte_lt _⟩
  rw [← fmt.decode_exact _ _ hd.1 hd.2]
  unfold Tmp102.pointerWriteStatus at h
  simp [Tmp102.read, Tmp102.dataBytes, Tmp102.worldAtDataReads, h]

/-! ## Properties of `Tmp102::read` -/

/-- C1. If the `endTransmission` that follows the pointer-register write returns a nonzero
status, `Tmp102::read` returns exactly `TEMP_ABSOLUTE_ZERO`, for every sensor object, every
bus implementation and every state of the bus objects (receive buffers included). -/
theorem Tmp102_read_bus_error_sentinel {σ : Type} (fmt : DoubleFormat) (I : TwoWire σ)
    (t : Tmp102) (w : World σ) (herr : t.pointerWriteStatus I w ≠ 0) :
    (t.read fmt I w).1 = TEMP_ABSOLUTE_ZERO fmt :=
  Tmp102.read_nack fmt I t w herr

/-- Witness for C1: a bus that reports status 2 while its receive buffer holds
`{0x19, 0x00}`. -/
theorem Tmp102_read_bus_error_sentinel_witness :
    Tmp102.pointerWriteStatus simWire ⟨Wire, DRIVER_TMP102_ADDR⟩
        (simWorld ⟨2, [0x19, 0x00], [0x19, 0x00]⟩) ≠ 0 ∧
      (Tmp102.read .binary64 simWire ⟨Wire, DRIVER_TMP102_ADDR⟩
        (simWorld ⟨2, [0x19, 0x00], [0x19, 0x00]⟩)).1 = TEMP_ABSOLUTE_ZERO .binary64 :=
  ⟨by decide, Tmp102_read_bus_error_sentinel _ _ _ _ (by decide)⟩

/-- C2. For every non-negative 12-bit code `c ≤ 0x7FF`, an acknowledged `Tmp102::read`
whose two data bytes are `c >> 4` and `(c & 0xF) << 4` returns exactly `c * 0.0625`. -/
theorem Tmp102_read_nonneg_code {σ : Type} (fmt : DoubleFormat) (I : TwoWire σ)
    (t : Tmp102) (w : World σ) (c : Nat) (_hc : c ≤ 0x7FF)
    (hack : t.pointerWriteStatus I w = 0)
    (hdata : t.dataBytes I w = (c >>> 4, (c &&& 0xF) <<< 4)) :
    (t.read fmt I w).1 = (c : ℚ) * 0.0625 := by
  rw [Tmp102.read_ack fmt I t w hack, hdata]
  have hmod : c &&& 0xF = c % 16 := Nat.and_pow_two_sub_one_eq_mod c 4
  have hcode : (c >>> 4) * 16 + ((c &&& 0xF) <<< 4) / 16 = c := by
    rw [hmod, Nat.shiftLeft_eq, Nat.shiftRight_eq_div_pow]
    omega
  simp only [hcode]

/-- Witness for C2: the bytes `{0x19, 0x00}` (code `0x190`) decode to `25.0`. -/
theorem Tmp102_read_nonneg_code_witness :
    0x190 ≤ 0x7FF ∧
      Tmp102.pointerWriteStatus simWire ⟨Wire, DRIVER_TMP102_ADDR⟩
        (simWorld ⟨0, [0x19, 0x00], []⟩) = 0 ∧
      Tmp102.dataBytes simWire ⟨Wire, DRIVER_TMP102_ADDR⟩
        (simWorld ⟨0, [0x19, 0x00], []⟩) = (0x19, 0x00) ∧
      (Tmp102.read .binary64 simWire ⟨Wire, DRIVER_TMP102_ADDR⟩
        (simWorld ⟨0, [0x19, 0x00], []⟩)).1 = 25 :=
  ⟨by decide, by decide, by decide,
    (Tmp102_read_nonneg_code .binary64 simWire ⟨Wire, DRIVER_TMP102_ADDR⟩
      (simWorld ⟨0, [0x19, 0x00], []⟩) 0x190 (by decide) (by decide) (by decide)).trans
      (by norm_num)⟩

/-- C3, the code as written: the bytes are combined as unsigned quantities and the sign bit
of the 12-bit code is never extended. An acknowledged read of `{0xE7, 0x00}` (code `0xE70`,
the twos-complement code of `-25.0`) returns `231.0`; and no call of `read` returns a
negative value other than the sentinel. -/
theorem Tmp102_read_negative_code_unsigned :
    (∀ fmt : DoubleFormat,
      (Tmp102.read fmt simWire ⟨Wire, DRIVER_TMP102_ADDR⟩
        (simWorld ⟨0, [0xE7, 0x00], []⟩)).1 = 231) ∧
    (∀ (σ : Type) (fmt : DoubleFormat) (I : TwoWire σ) (t : Tmp102) (w : World σ),
      (t.read fmt I w).1 = TEMP_ABSOLUTE_ZERO fmt ∨ 0 ≤ (t.read fmt I w).1) := by
  refine ⟨fun fmt => ?_, fun σ fmt I t w => ?_⟩
  · have hd : Tmp102.dataBytes simWire ⟨Wire, DRIVER_TMP102_ADDR⟩
        (simWorld ⟨0, [0xE7, 0x00], []⟩) = (0xE7, 0x00) := by decide
    rw [Tmp102.read_ack fmt simWire _ _ (by decide), hd]
    norm_num
  · by_cases h : t.pointerWriteStatus I w = 0
    · right
      rw [Tmp102.read_ack fmt I t w h]
      positivity
    · left
      exact Tmp102.read_nack fmt I t w h

/-- C4. `Tmp102::read` returns `TEMP_ABSOLUTE_ZERO` if and only if the status of the pointer
write was nonzero: no pair of data bytes decodes to the sentinel. -/
theorem Tmp102_read_sentinel_iff {σ : Type} (fmt : DoubleFormat) (I : TwoWire σ)
    (t : Tmp102) (w : World σ) :
    (t.read fmt I w).1 = TEMP_ABSOLUTE_ZERO fmt ↔ t.pointerWriteStatus I w ≠ 0 := by
  constructor
  · intro heq hack
    have hneg := TEMP_ABSOLUTE_ZERO_neg fmt
    rw [← heq, Tmp102.read_ack fmt I t w hack] at hneg
    have hnn : (0 : ℚ) ≤ (((t.dataBytes I w).1 * 16 + (t.dataBytes I w).2 / 16 : Nat) : ℚ)
        * 0.0625 := by positivity
    exact absurd hneg (not_lt.mpr hnn)
  · exact Tmp102.read_nack fmt I t w

/-- C7. The low nibble of the second data byte is dropped: an acknowledged read of the data
bytes `(b0, b1)` returns the same value as an acknowledged read of `(b0, b1 & 0xF0)`, and
that value is `(b0 * 16 + b1 / 16) * 0.0625`. -/
theorem Tmp102_read_low_nibble_dropped {σ : Type} (fmt : DoubleFormat) (I : TwoWire σ)
    (t t' : Tmp102) (w w' : World σ) (b0 b1 : Nat)
    (hack : t.pointerWriteStatus I w = 0) (hdata : t.dataBytes I w = (b0, b1))
    (hack' : t'.pointerWriteStatus I w' = 0)
    (hdata' : t'.dataBytes I w' = (b0, b1 &&& 0xF0)) :
    (t.read fmt I w).1 = (t'.read fmt I w').1 ∧
      (t.read fmt I w).1 = ((b0 * 16 + b1 / 16 : Nat) : ℚ) * 0.0625 := by
  have hb1 : b1 < 256 := by
    have h := toByte_lt (I.readOn Wire (I.readOn Wire (t.worldAtDataReads I w)).2).1
    have h2 : (t.dataBytes I w).2 = b1 := by rw [hdata]
    rw [← h2]
    exact h
  have hmask : (b1 &&& 0xF0) / 16 = b1 / 16 := and_F0_div_16 b1 hb1
  rw [Tmp102.read_ack fmt I t w hack, Tmp102.read_ack fmt I t' w' hack', hdata, hdata']
  simp only [hmask, and_self]

/-- Witness for C7: the data bytes `{0x19, 0x0F}` and `{0x19, 0x00}`. -/
theorem Tmp102_read_low_nibble_dropped_witness :
    Tmp102.pointerWriteStatus simWire ⟨Wire, DRIVER_TMP102_ADDR⟩
        (simWorld ⟨0, [0x19, 0x0F], []⟩) = 0 ∧
      Tmp102.dataBytes simWire ⟨Wire, DRIVER_TMP102_ADDR⟩
        (simWorld ⟨0, [0x19, 0x0F], []⟩) = (0x19, 0x0F) ∧
      Tmp102.pointerWriteStatus simWire ⟨Wire, DRIVER_TMP102_ADDR⟩
        (simWorld ⟨0, [0x19, 0x00], []⟩) = 0 ∧
      Tmp102.dataBytes simWire ⟨Wire, DRIVER_TMP102_ADDR⟩
        (simWorld ⟨0, [0x19, 0x00], []⟩) = (0x19, 0x0F &&& 0xF0) ∧
      ((Tmp102.read .binary32 simWire ⟨Wire, DRIVER_TMP102_ADDR⟩
          (simWorld ⟨0, [0x19, 0x0F], []⟩)).1
        = (Tmp102.read .binary32 simWire ⟨Wire, DRIVER_TMP102_ADDR⟩
          (simWorld ⟨0, [0x19, 0x00], []⟩)).1 ∧
      (Tmp102.read .binary32 simWire ⟨Wire, DRIVER_TMP102_ADDR⟩
          (simWorld ⟨0, [0x19, 0x0F], []⟩)).1
        = ((0x19 * 16 + 0x0F / 16 : Nat) : ℚ) * 0.0625) :=
  ⟨by decide, by decide, by decide, by decide,
    Tmp102_read_low_nibble_dropped .binary32 simWire ⟨Wire, DRIVER_TMP102_ADDR⟩
      ⟨Wire, DRIVER_TMP102_ADDR⟩ (simWorld ⟨0, [0x19, 0x0F], []⟩)
      (simWorld ⟨0, [0x19, 0x00], []⟩) 0x19 0x0F (by decide) (by decide) (by decide)
      (by decide)⟩

/-- C8. The bus trace of `Tmp102::read`, for a sensor constructed on bus `wire` with slave
address `slv_addr`: the pointer write (`beginTransmission(slv_addr)`, `write(0x00)`,
`endTransmission()`) is followed by exactly one `requestFrom(slv_addr, 2)` and the data
reads when the status is 0, and by no bus operation at all when the status is nonzero. -/
theorem Tmp102_read_trace {σ : Type} (fmt : DoubleFormat) (I : TwoWire σ) (wire : BusRef)
    (slv_addr : Nat) (w0 w : World σ) :
    ((Tmp102.new I wire slv_addr w0).1.read fmt I w).2.trace
      = w.trace ++
        ([⟨wire, .beginTransmission slv_addr⟩, ⟨wire, .write 0x00⟩, ⟨wire, .endTransmission⟩] ++
          if (Tmp102.new I wire slv_addr w0).1.pointerWriteStatus I w = 0 then
            [⟨wire, .requestFrom slv_addr 2⟩, ⟨wire, .endTransmission⟩,
              ⟨Wire, .read⟩, ⟨Wire, .read⟩]
          else []) := by
  by_cases h : (Tmp102.new I wire slv_addr w0).1.pointerWriteStatus I w = 0
  · rw [if_pos h]
    unfold Tmp102.pointerWriteStatus at h
    simp [Tmp102.read, Tmp102.new, h, World.call, TwoWire.beginTransmissionOn,
      TwoWire.writeOn, TwoWire.endTransmissionOn, TwoWire.requestFromOn, TwoWire.readOn] at h ⊢
    simp [h]
  · rw [if_neg h]
    unfold Tmp102.pointerWriteStatus at h
    simp [Tmp102.read, Tmp102.new, h, World.call, TwoWire.beginTransmissionOn,
      TwoWire.writeOn, TwoWire.endTransmissionOn, TwoWire.requestFromOn, TwoWire.readOn] at h ⊢
    simp [h]

/-- C9, the code as written: the two data bytes are fetched with `Wire.read()`, on the
global bus object, whatever bus the sensor was constructed on. For a sensor constructed on
a second bus (bus 1) whose slave acknowledges and delivers `{0x19, 0x00}`, `read` returns
`255.9375` when the receive buffer of the global `Wire` is empty and `10.0` when it holds
`{0x0A, 0x00}`; the trace shows the two reads on `Wire`. -/
theorem Tmp102_read_data_from_global_Wire :
    (∀ fmt : DoubleFormat,
      ((Tmp102.new simWire 1 DRIVER_TMP102_ADDR
          (simWorld2 ⟨0, [], []⟩ ⟨0, [0x19, 0x00], []⟩)).1.read fmt simWire
        (Tmp102.new simWire 1 DRIVER_TMP102_ADDR
          (simWorld2 ⟨0, [], []⟩ ⟨0, [0x19, 0x00], []⟩)).2).1 = 4095 / 16) ∧
    (∀ fmt : DoubleFormat,
      ((Tmp102.new simWire 1 DRIVER_TMP102_ADDR
          (simWorld2 ⟨0, [], [0x0A, 0x00]⟩ ⟨0, [0x19, 0x00], []⟩)).1.read fmt simWire
        (Tmp102.new simWire 1 DRIVER_TMP102_ADDR
          (simWorld2 ⟨0, [], [0x0A, 0x00]⟩ ⟨0, [0x19, 0x00], []⟩)).2).1 = 10) ∧
    (∀ fmt : DoubleFormat,
      ((Tmp102.new simWire 1 DRIVER_TMP102_ADDR
          (simWorld2 ⟨0, [], []⟩ ⟨0, [0x19, 0x00], []⟩)).1.read fmt simWire
        (Tmp102.new simWire 1 DRIVER_TMP102_ADDR
          (simWorld2 ⟨0, [], []⟩ ⟨0, [0x19, 0x00], []⟩)).2).2.trace
        = [⟨1, .begin⟩, ⟨1, .beginTransmission 0x48⟩, ⟨1, .write 0x00⟩, ⟨1, .endTransmission⟩,
            ⟨1, .requestFrom 0x48 2⟩, ⟨1, .endTransmission⟩, ⟨Wire, .read⟩, ⟨Wire, .read⟩]) := by
  refine ⟨fun fmt => ?_, fun fmt => ?_, fun fmt => ?_⟩
  · have hd : Tmp102.dataBytes simWire
        (Tmp102.new simWire 1 DRIVER_TMP102_ADDR
          (simWorld2 ⟨0, [], []⟩ ⟨0, [0x19, 0x00], []⟩)).1
        (Tmp102.new simWire 1 DRIVER_TMP102_ADDR
          (simWorld2 ⟨0, [], []⟩ ⟨0, [0x19, 0x00], []⟩)).2 = (0xFF, 0xFF) := by decide
    rw [Tmp102.read_ack fmt simWire _ _ (by decide), hd]
    norm_num
  · have hd : Tmp102.dataBytes simWire
        (Tmp102.new simWire 1 DRIVER_TMP102_ADDR
          (simWorld2 ⟨0, [], [0x0A, 0x00]⟩ ⟨0, [0x19, 0x00], []⟩)).1
        (Tmp102.new simWire 1 DRIVER_TMP102_ADDR
          (simWorld2 ⟨0, [], [0x0A, 0x00]⟩ ⟨0, [0x19, 0x00], []⟩)).2 = (0x0A, 0x00) := by
      decide
    rw [Tmp102.read_ack fmt simWire _ _ (by decide), hd]
    norm_num
  · simp [Tmp102.read, Tmp102.new, World.call, TwoWire.beginOn, TwoWire.beginTransmissionOn,
      TwoWire.writeOn, TwoWire.endTransmissionOn, TwoWire.requestFromOn, TwoWire.readOn,
      simWire, simWorld2, DRIVER_TMP102_ADDR]

/-! ## The driver address table -/

/-- C5. The address table binds the luminosity sensor to `0x39`, the digital temperature
sensor to `0x48`, the IR thermometer to `0x5A` and the UV/light sensor to `0x60`; each is a
7-bit address and the four are pairwise distinct. -/
theorem driver_addr_table :
    DRIVER_TSL2561_ADDR = 0x39 ∧ DRIVER_TMP102_ADDR = 0x48 ∧
      DRIVER_MLX90614_ADDR = 0x5A ∧ DRIVER_SI1145_ADDR = 0x60 ∧
      (∀ a ∈ [DRIVER_TSL2561_ADDR, DRIVER_TMP102_ADDR, DRIVER_MLX90614_ADDR,
        DRIVER_SI1145_ADDR], a < 0x80) ∧
      [DRIVER_TSL2561_ADDR, DRIVER_TMP102_ADDR, DRIVER_MLX90614_ADDR,
        DRIVER_SI1145_ADDR].Nodup := by
  decide

/-! ## The serial multiplexer -/

/-- C6. On an `ArdusatSerial` whose mode is `SERIAL_MODE_HARDWARE_AND_SOFTWARE`, `write(x)`
adds to the trace one write of `x` on the hardware transport followed by one write of `x`
on the software transport, leaves each transport in the state its own write produces, and
returns the byte count of the hardware transport. -/
theorem ArdusatSerial_write_dual {H S : Type} (T : Transports H S) (self : ArdusatSerial)
    (x : Nat) (w : SerialWorld H S)
    (hmode : self._mode = serialMode.SERIAL_MODE_HARDWARE_AND_SOFTWARE) :
    (self.write T x w).2.trace = w.trace ++ [(Transport.hardware, x), (Transport.software, x)] ∧
      (self.write T x w).1 = (T.hardwareWrite w.hardware x).1 ∧
      (self.write T x w).2.hardware = (T.hardwareWrite w.hardware x).2 ∧
      (self.write T x w).2.software = (T.softwareWrite w.software x).2 := by
  simp [ArdusatSerial.write, hmode, Transports.writeHardware, Transports.writeSoftware]

/-- Witness for C6: the byte `0x41` written in dual mode to the simulated transports, the
software transport failing its write. -/
theorem ArdusatSerial_write_dual_witness :
    (ArdusatSerial.new serialMode.SERIAL_MODE_HARDWARE_AND_SOFTWARE)._mode
        = serialMode.SERIAL_MODE_HARDWARE_AND_SOFTWARE ∧
      ((ArdusatSerial.new serialMode.SERIAL_MODE_HARDWARE_AND_SOFTWARE).write simTransports
          0x41 ⟨[], [], []⟩).2.trace
        = [] ++ [(Transport.hardware, 0x41), (Transport.software, 0x41)] ∧
      ((ArdusatSerial.new serialMode.SERIAL_MODE_HARDWARE_AND_SOFTWARE).write simTransports
          0x41 ⟨[], [], []⟩).1 = (simTransports.hardwareWrite [] 0x41).1 :=
  ⟨rfl,
    (ArdusatSerial_write_dual simTransports
      (ArdusatSerial.new serialMode.SERIAL_MODE_HARDWARE_AND_SOFTWARE) 0x41 ⟨[], [], []⟩ rfl).1,
    (ArdusatSerial_write_dual simTransports
      (ArdusatSerial.new serialMode.SERIAL_MODE_HARDWARE_AND_SOFTWARE) 0x41 ⟨[], [], []⟩ rfl).2.1⟩

/-- C10. Each integer overload of `write` is the byte write of `n mod 256`: it returns what
`write(uint8_t)` returns on that byte, the byte is the low 8 bits of `n` (also for a
negative `n`), and arguments that differ by a multiple of 256 produce the same write. -/
theorem ArdusatSerial_write_integer_overloads {S : Type}
    (write : ArdusatSerial → Nat → S → Nat × S) (self : ArdusatSerial) :
    (∀ n : Nat, self.write_unsigned_long write n = write self (n % 256)) ∧
      (∀ n : Int, self.write_long write n = write self (n % 256).toNat) ∧
      (∀ n : Nat, self.write_unsigned_int write n = write self (n % 256)) ∧
      (∀ n : Int, self.write_int write n = write self (n % 256).toNat) ∧
      (∀ n : Int, ((n % 256).toNat : Int) = n % 256 ∧ (n % 256).toNat < 256) ∧
      (∀ n k : Nat, self.write_unsigned_long write (n + 256 * k)
        = self.write_unsigned_long write n) ∧
      (∀ n k : Int, self.write_long write (n + 256 * k) = self.write_long write n) ∧
      (∀ n k : Nat, self.write_unsigned_int write (n + 256 * k)
        = self.write_unsigned_int write n) ∧
      (∀ n k : Int, self.write_int write (n + 256 * k) = self.write_int write n) := by
  have hnat : ∀ n : Nat, toUInt8 (n : Int) = n % 256 := by
    intro n
    unfold toUInt8
    omega
  have hshift : ∀ n k : Int, toUInt8 (n + 256 * k) = toUInt8 n := by
    intro n k
    unfold toUInt8
    rw [Int.add_mul_emod_self_left]
  have hshiftNat : ∀ n k : Nat, toUInt8 ((n + 256 * k : Nat) : Int) = toUInt8 (n : Int) := by
    intro n k
    push_cast
    exact hshift n k
  refine ⟨fun n => ?_, fun n => rfl, fun n => ?_, fun n => rfl, fun n => ?_, fun n k => ?_,
    fun n k => ?_, fun n k => ?_, fun n k => ?_⟩
  · simp only [ArdusatSerial.write_unsigned_long, hnat]
  · simp only [ArdusatSerial.write_unsigned_int, hnat]
  · have h := Int.emod_lt_of_pos n (by norm_num : (0 : Int) < 256)
    have h0 := Int.emod_nonneg n (by norm_num : (256 : Int) ≠ 0)
    omega
  · simp only [ArdusatSerial.write_unsigned_long, hshiftNat]
  · simp only [ArdusatSerial.write_long, hshift]
  · simp only [ArdusatSerial.write_unsigned_int, hshiftNat]
  · simp only [ArdusatSerial.write_int, hshift]

end SpaceKit
